import Mathlib

/-!
# Verification of the digital-memory-capsule worker

A shallow embedding of the Cloudflare worker in `worker/src/index.ts`:
the memory record data model, the code generator, and the
create / read / list / update / delete handlers, each modelled as a pure
function of the key-value store state, the request parameters, and the
externally supplied nondeterminism (the shuffle permutation used by code
generation, the URL-to-object-key parser of the blob adapter, and the
outcome reported by the blob store's batch delete).
-/

namespace Capsule

/-- The `Memory` record stored as the KV value (interface `Memory` in
`worker/src/index.ts`).  `avatarUrl`/`coverImageUrl` are optional in the
TypeScript interface; `none` models an absent or `null` field. -/
structure Memory where
  slug : String
  title : String
  shortMessage : String
  memoryContent : String
  images : List String
  createdAt : String
  editKey : String
  avatarUrl : Option String := none
  coverImageUrl : Option String := none
deriving DecidableEq, Repr

/-- The public projection of a record: every field of `Memory` except
`editKey` (the handlers `delete memory.editKey` before responding). -/
structure PublicMemory where
  slug : String
  title : String
  shortMessage : String
  memoryContent : String
  images : List String
  createdAt : String
  avatarUrl : Option String := none
  coverImageUrl : Option String := none
deriving DecidableEq, Repr

/-- Strip the `editKey` field, as the GET and PUT handlers do before
serialising the response body. -/
def toPublic (m : Memory) : PublicMemory :=
  { slug := m.slug
    title := m.title
    shortMessage := m.shortMessage
    memoryContent := m.memoryContent
    images := m.images
    createdAt := m.createdAt
    avatarUrl := m.avatarUrl
    coverImageUrl := m.coverImageUrl }

/-- The metadata KV store (`MEMORIES_KV`): a record per code, `none` when
the key is absent (`kv.get` returning `null`). -/
def KV : Type := String → Option Memory

/-- `kv.put(key, value)`. -/
def KV.put (kv : KV) (k : String) (m : Memory) : KV :=
  fun s => if s = k then some m else kv s

/-- `kv.delete(key)`. -/
def KV.del (kv : KV) (k : String) : KV :=
  fun s => if s = k then none else kv s

/-! ## Code generation (`generateCode`, `generateAndCheckCode`) -/

/-- The pool of digits in `generateCode`: each digit 0-9 appears twice. -/
def codeDigits : List Char :=
  ['0','0','1','1','2','2','3','3','4','4','5','5','6','6','7','7','8','8','9','9']

/-- `generateCode`, parametrised by the outcome of the Fisher-Yates
`shuffle`: take the first 8 characters of the shuffled digit pool and join
them.  The caller supplies a `shuffled` list that is a permutation of
`codeDigits`. -/
def generateCode (shuffled : List Char) : String :=
  String.mk (shuffled.take 8)

/-- The error thrown by `generateAndCheckCode` when no free code is found
within `maxAttempts` candidates. -/
inductive CodeGenError
  | exhaustion
deriving DecidableEq, Repr

/-- `maxAttempts = 20` in `generateAndCheckCode`. -/
def maxAttempts : Nat := 20

/-- The `while (attempts < maxAttempts)` loop of `generateAndCheckCode`:
try candidate `i`, return it when the KV lookup finds nothing, otherwise
retry with the next candidate while fuel remains. -/
def genLoop (kv : KV) (cands : Nat → String) : Nat → Nat → Except CodeGenError String
  | 0, _ => .error .exhaustion
  | fuel + 1, i =>
    if kv (cands i) = none then .ok (cands i)
    else genLoop kv cands fuel (i + 1)

/-- `generateAndCheckCode`: run the retry loop with the hard cap of
`maxAttempts` candidates, starting from the first. -/
def generateAndCheckCode (kv : KV) (cands : Nat → String) : Except CodeGenError String :=
  genLoop kv cands maxAttempts 0

/-! ## Blob store adapter -/

/-- Outcome of one `DeleteObjectsCommand` round trip: either the send
itself throws, or it returns an output whose `Errors` array lists the keys
whose deletion failed (empty when every deletion succeeded). -/
inductive BlobResult
  | thrown : String → BlobResult
  | output : List String → BlobResult
deriving DecidableEq, Repr

/-- `new URL(imageUrl).pathname.substring(1)` wrapped in try/catch,
abstracted as a caller-supplied parser (`none` models the constructor
throwing on a malformed URL), followed by the handlers' filtering of empty
keys. -/
def keyOf (parseKey : String → Option String) (u : String) : Option String :=
  match parseKey u with
  | none => none
  | some k => if k = "" then none else some k

/-- The `objectKeys` array both handlers build: map the URLs through the
key extractor and drop malformed or empty entries. -/
def objectKeysOf (parseKey : String → Option String) (urls : List String) : List String :=
  urls.filterMap (keyOf parseKey)

/-! ## Update (`PUT /api/memory/:slug`) -/

/-- The parsed request body of an update, `Partial<Memory>`: each field may
be absent (`none`).  For `avatarUrl`/`coverImageUrl` the JSON value may
also be an explicit `null`, modelled as `some none`. -/
structure UpdateData where
  slug : Option String := none
  title : Option String := none
  shortMessage : Option String := none
  memoryContent : Option String := none
  images : Option (List String) := none
  createdAt : Option String := none
  editKey : Option String := none
  avatarUrl : Option (Option String) := none
  coverImageUrl : Option (Option String) := none
deriving DecidableEq, Repr

/-- `originalImageUrls.filter(url => !(updateData.images || []).includes(url))`:
the stored gallery entries absent from the submitted gallery, where an
absent (or `null`) submitted gallery reads as `[]`. -/
def galleryToDelete (stored : Memory) (u : UpdateData) : List String :=
  stored.images.filter (fun url => !((u.images.getD []).contains url))

/-- The avatar/cover deletion checks
`if (storedMemory.avatarUrl && storedMemory.avatarUrl !== updateData.avatarUrl)`:
a truthy stored value (present and non-empty) is pushed unless the update
carries exactly the same string. -/
def singleToDelete (storedVal : Option String) (updVal : Option (Option String)) :
    List String :=
  match storedVal with
  | none => []
  | some s => if s = "" then [] else if updVal = some (some s) then [] else [s]

/-- The full `imageUrlsToDelete` array of the update handler: gallery diff,
then the avatar check, then the cover check. -/
def urlsToDelete (stored : Memory) (u : UpdateData) : List String :=
  galleryToDelete stored u
    ++ singleToDelete stored.avatarUrl u.avatarUrl
    ++ singleToDelete stored.coverImageUrl u.coverImageUrl

/-- The merge `{...storedMemory, ...updateData}`: a shallow spread, so a
present field of the body overwrites the stored one (including an explicit
`null` for avatar/cover) and an absent field keeps the stored value. -/
def mergeMemory (stored : Memory) (u : UpdateData) : Memory :=
  { slug := u.slug.getD stored.slug
    title := u.title.getD stored.title
    shortMessage := u.shortMessage.getD stored.shortMessage
    memoryContent := u.memoryContent.getD stored.memoryContent
    images := u.images.getD stored.images
    createdAt := u.createdAt.getD stored.createdAt
    editKey := u.editKey.getD stored.editKey
    avatarUrl := match u.avatarUrl with | none => stored.avatarUrl | some v => v
    coverImageUrl := match u.coverImageUrl with | none => stored.coverImageUrl | some v => v }

/-- Response of the update handler. -/
inductive UpdateResponse
  | authRequired
  | notFound
  | forbidden
  | storageError : String → UpdateResponse
  | ok : PublicMemory → UpdateResponse
deriving DecidableEq, Repr

/-- Observable outcome of one update request: the response, the KV store
afterwards, and the list of `DeleteObjectsCommand` calls issued (each a
list of object keys). -/
structure UpdateOutcome where
  response : UpdateResponse
  kv : KV
  blobCalls : List (List String)

/-- The tail of the update handler after the deletion logic: merge the body
over the stored record, put the merged record back, and return it with
`editKey` stripped. -/
def finishUpdate (kv : KV) (slug : String) (stored : Memory) (u : UpdateData)
    (calls : List (List String)) : UpdateOutcome :=
  let merged := mergeMemory stored u
  ⟨.ok (toPublic merged), KV.put kv slug merged, calls⟩

/-- The `PUT /api/memory/:slug` handler.  `editKey` is the `X-Edit-Key`
header (`none` when absent; the empty string is falsy in the guard).
`blob` is the outcome the blob store reports for a batch delete of the
given keys.  Per-object errors in `deleteResult.Errors` are only logged:
the handler proceeds to merge and put; only a thrown send aborts with a
500. -/
def updateMemory (bucketName : String) (kv : KV) (slug : String)
    (editKey : Option String) (u : UpdateData)
    (parseKey : String → Option String) (blob : List String → BlobResult) :
    UpdateOutcome :=
  match editKey with
  | none => ⟨.authRequired, kv, []⟩
  | some ek =>
    if ek = "" then ⟨.authRequired, kv, []⟩
    else if bucketName = "" then
      ⟨.storageError "Configuration error: R2_BUCKET_NAME is not set.", kv, []⟩
    else
      match kv slug with
      | none => ⟨.notFound, kv, []⟩
      | some stored =>
        if stored.editKey ≠ ek then ⟨.forbidden, kv, []⟩
        else
          let urls := urlsToDelete stored u
          if urls = [] then finishUpdate kv slug stored u []
          else
            let keys := objectKeysOf parseKey urls
            if keys = [] then finishUpdate kv slug stored u []
            else
              match blob keys with
              | .thrown e => ⟨.storageError e, kv, [keys]⟩
              | .output _errs => finishUpdate kv slug stored u [keys]

/-! ## Delete (`DELETE /api/memory/:slug`) -/

/-- Response of the delete handler. -/
inductive DeleteResponse
  | authRequired
  | forbidden
  | storageError : String → DeleteResponse
  | success
deriving DecidableEq, Repr

/-- Observable outcome of one delete request. -/
structure DeleteOutcome where
  response : DeleteResponse
  kv : KV
  blobCalls : List (List String)

/-- `allImageUrls` of the delete handler: the gallery plus the avatar and
cover when truthy (present and non-empty). -/
def allImageUrls (m : Memory) : List String :=
  m.images
    ++ (match m.avatarUrl with
        | none => []
        | some s => if s = "" then [] else [s])
    ++ (match m.coverImageUrl with
        | none => []
        | some s => if s = "" then [] else [s])

/-- The `DELETE /api/memory/:slug` handler.  An absent record is treated as
already deleted (204).  A batch delete that reports any per-object error
makes the handler throw, so the catch block answers 500 and the KV record
is left in place; the KV delete runs only after a fully successful batch
delete (or when there was nothing to delete). -/
def deleteMemory (bucketName : String) (kv : KV) (slug : String)
    (editKey : Option String)
    (parseKey : String → Option String) (blob : List String → BlobResult) :
    DeleteOutcome :=
  match editKey with
  | none => ⟨.authRequired, kv, []⟩
  | some ek =>
    if ek = "" then ⟨.authRequired, kv, []⟩
    else if bucketName = "" then
      ⟨.storageError "Configuration error: R2_BUCKET_NAME is not set.", kv, []⟩
    else
      match kv slug with
      | none => ⟨.success, kv, []⟩
      | some m =>
        if m.editKey ≠ ek then ⟨.forbidden, kv, []⟩
        else
          let urls := allImageUrls m
          if urls = [] then ⟨.success, KV.del kv slug, []⟩
          else
            let keys := objectKeysOf parseKey urls
            if keys = [] then ⟨.success, KV.del kv slug, []⟩
            else
              match blob keys with
              | .thrown e => ⟨.storageError e, kv, [keys]⟩
              | .output errs =>
                if errs = [] then ⟨.success, KV.del kv slug, [keys]⟩
                else
                  ⟨.storageError
                    ("Failed to delete images from storage: " ++
                      String.intercalate ", " errs), kv, [keys]⟩

/-! ## Read (`GET /api/memory/:slug`) -/

/-- Response of the get handler. -/
inductive GetResponse
  | notFound
  | found : PublicMemory → GetResponse
deriving DecidableEq, Repr

/-- The `GET /api/memory/:slug` handler: fetch, 404 when absent, otherwise
strip `editKey` and return the rest. -/
def getMemory (kv : KV) (slug : String) : GetResponse :=
  match kv slug with
  | none => .notFound
  | some m => .found (toPublic m)

/-! ## Create (`POST /api/memory`) -/

/-- The parsed request body of a create, `Omit<Memory, 'slug'>`: the caller
supplies every field but the slug, including the `editKey`.  A missing
`title` or `editKey` behaves like the empty string in the falsiness
check. -/
structure CreateData where
  title : String
  shortMessage : String
  memoryContent : String
  images : List String
  createdAt : String
  editKey : String
  avatarUrl : Option String := none
  coverImageUrl : Option String := none
deriving DecidableEq, Repr

/-- `{...newMemoryData, slug: uniqueCode}`. -/
def toMemory (d : CreateData) (slug : String) : Memory :=
  { slug := slug
    title := d.title
    shortMessage := d.shortMessage
    memoryContent := d.memoryContent
    images := d.images
    createdAt := d.createdAt
    editKey := d.editKey
    avatarUrl := d.avatarUrl
    coverImageUrl := d.coverImageUrl }

/-- Response of the create handler. -/
inductive CreateResponse
  | validationError
  | errorResponse : String → CreateResponse
  | created : String → CreateResponse
deriving DecidableEq, Repr

/-- The `POST /api/memory` handler: reject when `title` or `editKey` is
falsy, allocate a code, store the full record (including the caller's
`editKey`) under it, and return the code.  An exhausted code generator is
caught and answered as a 400 error response. -/
def createMemory (kv : KV) (d : CreateData) (cands : Nat → String) :
    CreateResponse × KV :=
  if d.title = "" ∨ d.editKey = "" then (.validationError, kv)
  else
    match generateAndCheckCode kv cands with
    | .error .exhaustion =>
      (.errorResponse "Could not generate a unique secret code after multiple attempts.", kv)
    | .ok code => (.created code, KV.put kv code (toMemory d code))

/-! ## List summaries (`POST /api/memories/list`) -/

/-- A list-endpoint summary: `{slug, title, createdAt}`. -/
structure MemorySummary where
  slug : String
  title : String
  createdAt : String
deriving DecidableEq, Repr

/-- The summary projection of a record. -/
def summaryOf (m : Memory) : MemorySummary :=
  ⟨m.slug, m.title, m.createdAt⟩

/-- `Promise.all(slugs.map(slug => kv.get(slug)))`: collect every per-code
fetch result in order, but a single rejected fetch rejects the whole
join. -/
def fetchAll (kvE : String → Except String (Option Memory)) :
    List String → Except String (List (Option Memory))
  | [] => .ok []
  | s :: rest => do
    let r ← kvE s
    let rs ← fetchAll kvE rest
    pure (r :: rs)

/-- The `POST /api/memories/list` handler: fan out one fetch per code,
drop the `null` results, and map the rest to summaries.  A rejected fetch
reaches the catch block and fails the whole request. -/
def listMemorySummaries (kvE : String → Except String (Option Memory))
    (slugs : List String) : Except String (List MemorySummary) :=
  (fetchAll kvE slugs).map (fun results => (results.filterMap id).map summaryOf)

/-! ## Concrete fixtures for witnesses and counterexamples -/

/-- A first concrete blob location. -/
def urlA : String := "https://img.example/a.jpg"

/-- A second concrete blob location. -/
def urlB : String := "https://img.example/b.jpg"

/-- A third concrete blob location. -/
def urlC : String := "https://img.example/c.jpg"

/-- A concrete URL-to-key extractor recognising the three fixture
locations. -/
def cparse : String → Option String := fun u =>
  if u = urlA then some "a.jpg"
  else if u = urlB then some "b.jpg"
  else if u = urlC then some "c.jpg"
  else none

/-- A concrete stored record with a one-image gallery. -/
def cstored : Memory :=
  { slug := "12345678", title := "Beach Day", shortMessage := "hi"
    memoryContent := "story", images := [urlA]
    createdAt := "2024-01-01T00:00:00Z", editKey := "k" }

/-- A KV store holding exactly `cstored` at its code. -/
def ckv : KV := fun s => if s = "12345678" then some cstored else none

/-- The empty KV store. -/
def kv0 : KV := fun _ => none

/-- A blob store whose batch deletes all succeed. -/
def blobOk : List String → BlobResult := fun _ => .output []

/-- A blob store reporting one per-object failure on every batch. -/
def blobErr : List String → BlobResult := fun _ => .output ["a.jpg"]

/-! ## C7: wrong secret key on update -/

/-- C7: for every update request whose supplied secret key differs from the
stored record's `editKey`, the handler answers `Forbidden`, issues no
`deleteObjects` call, and leaves the KV store unchanged (so a re-read
yields the same record). -/
theorem update_wrong_key_forbidden_no_mutation
    (bucket : String) (kv : KV) (slug ek : String) (u : UpdateData)
    (parseKey : String → Option String) (blob : List String → BlobResult)
    (stored : Memory)
    (hb : bucket ≠ "") (hek : ek ≠ "")
    (hkv : kv slug = some stored) (hkey : stored.editKey ≠ ek) :
    updateMemory bucket kv slug (some ek) u parseKey blob = ⟨.forbidden, kv, []⟩ := by
  simp [updateMemory, hb, hek, hkv, hkey]

/-- Witness for C7: the fixture store rejects the key `wrong` with
`Forbidden`, no blob call, state intact. -/
theorem update_wrong_key_forbidden_no_mutation_witness :
    updateMemory "bucket" ckv "12345678" (some "wrong") {} cparse blobOk
      = ⟨.forbidden, ckv, []⟩ :=
  update_wrong_key_forbidden_no_mutation "bucket" ckv "12345678" "wrong" {}
    cparse blobOk cstored (by decide) (by decide) (by decide) (by decide)

/-! ## C8: delete of an absent code -/

/-- C8: deleting a code with no stored record succeeds (204), makes no
blob-store call, and deletes nothing, whatever secret key the request
bears. -/
theorem delete_absent_code_idempotent_success
    (bucket : String) (kv : KV) (slug ek : String)
    (parseKey : String → Option String) (blob : List String → BlobResult)
    (hb : bucket ≠ "") (hek : ek ≠ "") (habs : kv slug = none) :
    deleteMemory bucket kv slug (some ek) parseKey blob = ⟨.success, kv, []⟩ := by
  simp [deleteMemory, hb, hek, habs]

/-- Witness for C8: deleting an absent code from the empty store with an
arbitrary key answers success and changes nothing. -/
theorem delete_absent_code_idempotent_success_witness :
    deleteMemory "bucket" kv0 "99999999" (some "any") cparse blobOk
      = ⟨.success, kv0, []⟩ :=
  delete_absent_code_idempotent_success "bucket" kv0 "99999999" "any"
    cparse blobOk (by decide) (by decide) rfl

/-! ## C3: delete orders blob cleanup before metadata removal -/

/-- C3: on a delete of a live record with the correct key, if the record
references no blobs the metadata record is removed at once with no blob
call; if the references yield a non-empty set of object keys, exactly one
`deleteObjects` call with those keys is issued, any reported per-object
failure (or a thrown call) aborts with a `StorageError` leaving the
metadata record in place, and the metadata record is removed exactly when
the batch delete reports no failure. -/
theorem delete_blobs_before_metadata
    (bucket : String) (kv : KV) (slug ek : String)
    (parseKey : String → Option String) (blob : List String → BlobResult)
    (stored : Memory)
    (hb : bucket ≠ "") (hek : ek ≠ "")
    (hkv : kv slug = some stored) (hkey : stored.editKey = ek) :
    (allImageUrls stored = [] →
      deleteMemory bucket kv slug (some ek) parseKey blob
        = ⟨.success, KV.del kv slug, []⟩) ∧
    (objectKeysOf parseKey (allImageUrls stored) ≠ [] →
      (deleteMemory bucket kv slug (some ek) parseKey blob).blobCalls
          = [objectKeysOf parseKey (allImageUrls stored)] ∧
      (∀ errs, errs ≠ [] →
        blob (objectKeysOf parseKey (allImageUrls stored)) = .output errs →
        (deleteMemory bucket kv slug (some ek) parseKey blob).response
            = .storageError
                ("Failed to delete images from storage: " ++ String.intercalate ", " errs) ∧
        (deleteMemory bucket kv slug (some ek) parseKey blob).kv = kv) ∧
      (∀ e, blob (objectKeysOf parseKey (allImageUrls stored)) = .thrown e →
        (deleteMemory bucket kv slug (some ek) parseKey blob).response = .storageError e ∧
        (deleteMemory bucket kv slug (some ek) parseKey blob).kv = kv) ∧
      (blob (objectKeysOf parseKey (allImageUrls stored)) = .output [] →
        deleteMemory bucket kv slug (some ek) parseKey blob
          = ⟨.success, KV.del kv slug, [objectKeysOf parseKey (allImageUrls stored)]⟩)) := by
  constructor
  · intro hurls
    simp [deleteMemory, hb, hek, hkv, hkey, hurls]
  · intro hkeys
    have hurls : allImageUrls stored ≠ [] := by
      intro h
      exact hkeys (by simp [objectKeysOf, h])
    have hshape : deleteMemory bucket kv slug (some ek) parseKey blob
        = (match blob (objectKeysOf parseKey (allImageUrls stored)) with
           | .thrown e =>
             ⟨.storageError e, kv, [objectKeysOf parseKey (allImageUrls stored)]⟩
           | .output errs =>
             if errs = [] then
               ⟨.success, KV.del kv slug, [objectKeysOf parseKey (allImageUrls stored)]⟩
             else
               ⟨.storageError
                   ("Failed to delete images from storage: " ++ String.intercalate ", " errs),
                 kv, [objectKeysOf parseKey (allImageUrls stored)]⟩) := by
      simp [deleteMemory, hb, hek, hkv, hkey, hurls, hkeys]
    refine ⟨?_, ?_, ?_, ?_⟩
    · rw [hshape]
      cases hblob : blob (objectKeysOf parseKey (allImageUrls stored)) with
      | thrown e => rfl
      | output errs =>
        by_cases herrs : errs = [] <;> simp [herrs]
    · intro errs herrs hblob
      rw [hshape, hblob]
      simp [herrs]
    · intro e hblob
      rw [hshape, hblob]
      exact ⟨rfl, rfl⟩
    · intro hblob
      rw [hshape, hblob]
      rfl

/-- Witness for C3: on the fixture record (one gallery image, correct key)
with a fully successful batch delete, the handler issues the one-key blob
call and then removes the metadata record. -/
theorem delete_blobs_before_metadata_witness :
    objectKeysOf cparse (allImageUrls cstored) ≠ [] ∧
    deleteMemory "bucket" ckv "12345678" (some "k") cparse blobOk
      = ⟨.success, KV.del ckv "12345678", [objectKeysOf cparse (allImageUrls cstored)]⟩ :=
  ⟨by decide,
    ((delete_blobs_before_metadata "bucket" ckv "12345678" "k" cparse blobOk cstored
        (by decide) (by decide) (by decide) (by decide)).2
      (by decide)).2.2.2 (by decide)⟩

/-! ## C1: per-object delete failures during update -/

/-- An update body that submits an empty gallery (so the whole stored
gallery joins the deletion set). -/
def updEmptyImages : UpdateData := { images := some [] }

/-- Counterexample to C1: on the fixture record the deletion set is the
non-empty `[urlA]` and the blob store reports a per-object failure for
`a.jpg`, yet the handler answers `200 OK` with the merged record (not a
`StorageError`) and overwrites the stored record with the merge, which
differs from the original. -/
theorem update_delete_failure_counterexample :
    urlsToDelete cstored updEmptyImages = [urlA] ∧
    blobErr (objectKeysOf cparse (urlsToDelete cstored updEmptyImages))
      = .output ["a.jpg"] ∧
    (updateMemory "bucket" ckv "12345678" (some "k") updEmptyImages cparse blobErr).response
      = .ok (toPublic (mergeMemory cstored updEmptyImages)) ∧
    (updateMemory "bucket" ckv "12345678" (some "k") updEmptyImages cparse blobErr).kv
        "12345678" = some (mergeMemory cstored updEmptyImages) ∧
    mergeMemory cstored updEmptyImages ≠ cstored := by
  decide

/-- C1 as amended: on the authorised update path with a non-empty set of
object keys to delete, a `deleteObjects` call that merely reports
per-object failures does not abort the update — the merged record is
written and returned (failures are only logged); the update aborts with a
`StorageError` and leaves the store unchanged only when the call itself
throws. -/
theorem update_proceeds_despite_delete_errors
    (bucket : String) (kv : KV) (slug ek : String) (u : UpdateData)
    (parseKey : String → Option String) (blob : List String → BlobResult)
    (stored : Memory)
    (hb : bucket ≠ "") (hek : ek ≠ "")
    (hkv : kv slug = some stored) (hkey : stored.editKey = ek)
    (hkeys : objectKeysOf parseKey (urlsToDelete stored u) ≠ []) :
    (∀ errs, blob (objectKeysOf parseKey (urlsToDelete stored u)) = .output errs →
      updateMemory bucket kv slug (some ek) u parseKey blob
        = ⟨.ok (toPublic (mergeMemory stored u)),
            KV.put kv slug (mergeMemory stored u),
            [objectKeysOf parseKey (urlsToDelete stored u)]⟩) ∧
    (∀ e, blob (objectKeysOf parseKey (urlsToDelete stored u)) = .thrown e →
      updateMemory bucket kv slug (some ek) u parseKey blob
        = ⟨.storageError e, kv, [objectKeysOf parseKey (urlsToDelete stored u)]⟩) := by
  have hurls : urlsToDelete stored u ≠ [] := by
    intro h
    exact hkeys (by simp [objectKeysOf, h])
  constructor
  · intro errs hblob
    simp [updateMemory, hb, hek, hkv, hkey, hurls, hkeys, hblob, finishUpdate]
  · intro e hblob
    simp [updateMemory, hb, hek, hkv, hkey, hurls, hkeys, hblob]

/-- Witness for C1's amended statement: on the fixture instance with the
error-reporting blob store, the update still writes and returns the merged
record. -/
theorem update_proceeds_despite_delete_errors_witness :
    updateMemory "bucket" ckv "12345678" (some "k") updEmptyImages cparse blobErr
      = ⟨.ok (toPublic (mergeMemory cstored updEmptyImages)),
          KV.put ckv "12345678" (mergeMemory cstored updEmptyImages),
          [objectKeysOf cparse (urlsToDelete cstored updEmptyImages)]⟩ :=
  (update_proceeds_despite_delete_errors "bucket" ckv "12345678" "k" updEmptyImages
      cparse blobErr cstored (by decide) (by decide) (by decide) (by decide)
      (by decide)).1 ["a.jpg"] (by decide)

/-! ## C2: the deletion set computed by update -/

/-- An update body that smuggles in a new `editKey`. -/
def updEvil : UpdateData := { editKey := some "evil" }

/-- An ordinary update body touching only title and gallery. -/
def updGood : UpdateData := { title := some "New title", images := some [urlA] }

/-- Counterexample to C4: an accepted update (correct key, record present)
whose body carries an `editKey` field overwrites the stored secret key —
the spread merges every supplied field, so `editKey` is not write-once
against a crafted payload. -/
theorem update_identity_fields_counterexample :
    (updateMemory "bucket" ckv "12345678" (some "k") updEvil cparse blobOk).response
      = .ok (toPublic (mergeMemory cstored updEvil)) ∧
    (updateMemory "bucket" ckv "12345678" (some "k") updEvil cparse blobOk).kv
        "12345678" = some (mergeMemory cstored updEvil) ∧
    (mergeMemory cstored updEvil).editKey = "evil" ∧
    cstored.editKey = "k" := by
  decide

/-- After any update request, the KV store is either untouched or holds the
shallow merge of the fetched record with the body at the updated code. -/
theorem updateMemory_kv_cases (bucket : String) (kv : KV) (slug : String)
    (ek : Option String) (u : UpdateData)
    (parseKey : String → Option String) (blob : List String → BlobResult) :
    (updateMemory bucket kv slug ek u parseKey blob).kv = kv ∨
    ∃ stored, kv slug = some stored ∧
      (updateMemory bucket kv slug ek u parseKey blob).kv
        = KV.put kv slug (mergeMemory stored u) := by
  unfold updateMemory finishUpdate
  cases ek with
  | none => exact Or.inl rfl
  | some e =>
    by_cases he : e = ""
    · simp only [he, if_pos rfl]
      exact Or.inl rfl
    · simp only [if_neg he]
      by_cases hb : bucket = ""
      · simp only [hb, if_pos rfl]
        exact Or.inl rfl
      · simp only [if_neg hb]
        cases hkv : kv slug with
        | none => exact Or.inl rfl
        | some stored =>
          by_cases hkey : stored.editKey ≠ e
          · simp only [if_pos hkey]
            exact Or.inl trivial
          · simp only [if_neg hkey]
            by_cases hurls : urlsToDelete stored u = []
            · simp only [if_pos hurls]
              exact Or.inr ⟨stored, rfl, rfl⟩
            · simp only [if_neg hurls]
              by_cases hkeys : objectKeysOf parseKey (urlsToDelete stored u) = []
              · simp only [if_pos hkeys]
                exact Or.inr ⟨stored, rfl, rfl⟩
              · simp only [if_neg hkeys]
                cases hblob : blob (objectKeysOf parseKey (urlsToDelete stored u)) with
                | thrown e' => exact Or.inl rfl
                | output errs => exact Or.inr ⟨stored, rfl, rfl⟩

/-- C4 as amended: whenever the update body does not itself carry the
`slug`, `createdAt`, or `editKey` fields, whatever record the KV store
holds at the code after the request has the same `slug`, `createdAt`, and
`editKey` as the record stored before; a body that does carry one of those
fields overwrites it (see the counterexample). -/
theorem update_preserves_identity_fields
    (bucket : String) (kv : KV) (slug : String) (ek : Option String)
    (u : UpdateData) (parseKey : String → Option String)
    (blob : List String → BlobResult) (stored m' : Memory)
    (hkv : kv slug = some stored)
    (hslug : u.slug = none) (hcre : u.createdAt = none) (hkeyf : u.editKey = none)
    (hres : (updateMemory bucket kv slug ek u parseKey blob).kv slug = some m') :
    m'.slug = stored.slug ∧ m'.createdAt = stored.createdAt ∧
      m'.editKey = stored.editKey := by
  rcases updateMemory_kv_cases bucket kv slug ek u parseKey blob with hcase | ⟨st, hst, hcase⟩
  · rw [hcase, hkv] at hres
    cases hres
    exact ⟨rfl, rfl, rfl⟩
  · rw [hkv] at hst
    cases hst
    rw [hcase] at hres
    have : some (mergeMemory stored u) = some m' := by
      simpa [KV.put] using hres
    cases this
    simp [mergeMemory, hslug, hcre, hkeyf]

/-- Witness for C4's amended statement: the ordinary fixture update leaves
`slug`, `createdAt`, and `editKey` of the stored record untouched. -/
theorem update_preserves_identity_fields_witness :
    (mergeMemory cstored updGood).slug = cstored.slug ∧
    (mergeMemory cstored updGood).createdAt = cstored.createdAt ∧
    (mergeMemory cstored updGood).editKey = cstored.editKey :=
  update_preserves_identity_fields "bucket" ckv "12345678" (some "k") updGood
    cparse blobOk cstored (mergeMemory cstored updGood)
    (by decide) rfl rfl rfl (by decide)

/-! ## C5: who generates the secret key on create -/

/-- A create body with a non-empty title and no secret key. -/
def dNoKey : CreateData :=
  { title := "Beach Day", shortMessage := "", memoryContent := ""
    images := [], createdAt := "2024-01-01T00:00:00Z", editKey := "" }

/-- A well-formed create body carrying its own secret key. -/
def dGood : CreateData :=
  { title := "Beach Day", shortMessage := "", memoryContent := ""
    images := [], createdAt := "2024-01-01T00:00:00Z", editKey := "secret-1" }

/-- A candidate stream that always proposes the same free code. -/
def cands0 : Nat → String := fun _ => "11223344"

/-- Counterexample to C5: a create with a non-empty title but no `editKey`
is rejected as a validation error (so the empty title is not the only
validation failure, and the service does not generate the key itself), and
a successful create stores exactly the caller-supplied `editKey`. -/
theorem create_validation_counterexample :
    dNoKey.title ≠ "" ∧
    (createMemory kv0 dNoKey cands0).1 = .validationError ∧
    (createMemory kv0 dGood cands0).2 "11223344" = some (toMemory dGood "11223344") ∧
    (toMemory dGood "11223344").editKey = dGood.editKey := by
  decide

/-- C5 as amended: the caller supplies the record's `editKey` along with
the content fields; the create handler rejects with a validation error
whenever the title or the supplied `editKey` is empty/missing, and on a
successful allocation stores the full record — including the
caller-supplied key — under the generated code. -/
theorem create_caller_supplied_key (kv : KV) (d : CreateData) (cands : Nat → String) :
    (d.title = "" ∨ d.editKey = "" →
      createMemory kv d cands = (.validationError, kv)) ∧
    (d.title ≠ "" → d.editKey ≠ "" →
      ∀ c, generateAndCheckCode kv cands = .ok c →
        (createMemory kv d cands).1 = .created c ∧
        (createMemory kv d cands).2 c = some (toMemory d c) ∧
        (toMemory d c).editKey = d.editKey) ∧
    (d.title ≠ "" → d.editKey ≠ "" →
      generateAndCheckCode kv cands = .error .exhaustion →
      createMemory kv d cands
        = (.errorResponse "Could not generate a unique secret code after multiple attempts.",
            kv)) := by
  refine ⟨?_, ?_, ?_⟩
  · intro h
    unfold createMemory
    rw [if_pos h]
  · intro ht hk c hc
    have hcond : ¬(d.title = "" ∨ d.editKey = "") := by
      rintro (h | h) <;> [exact ht h; exact hk h]
    unfold createMemory
    rw [if_neg hcond, hc]
    exact ⟨rfl, by simp [KV.put], rfl⟩
  · intro ht hk hc
    have hcond : ¬(d.title = "" ∨ d.editKey = "") := by
      rintro (h | h) <;> [exact ht h; exact hk h]
    unfold createMemory
    rw [if_neg hcond, hc]

/-- Witness for C5's amended statement: the fixture create succeeds and
stores the caller's key under the allocated code. -/
theorem create_caller_supplied_key_witness :
    (createMemory kv0 dGood cands0).1 = .created "11223344" ∧
    (createMemory kv0 dGood cands0).2 "11223344" = some (toMemory dGood "11223344") ∧
    (toMemory dGood "11223344").editKey = dGood.editKey :=
  (create_caller_supplied_key kv0 dGood cands0).2.1 (by decide) (by decide)
    "11223344" rfl

/-! ## C6: read paths strip the secret key -/

/-- A `200 OK` update response body is always the `editKey`-stripped
projection of the merge of the fetched record with the body. -/
theorem updateMemory_ok_response (bucket : String) (kv : KV) (slug : String)
    (ek : Option String) (u : UpdateData)
    (parseKey : String → Option String) (blob : List String → BlobResult)
    (p : PublicMemory)
    (hres : (updateMemory bucket kv slug ek u parseKey blob).response = .ok p) :
    ∃ stored, kv slug = some stored ∧ p = toPublic (mergeMemory stored u) := by
  unfold updateMemory finishUpdate at hres
  cases ek with
  | none => cases hres
  | some e =>
    by_cases he : e = ""
    · simp only [he, if_true] at hres
      cases hres
    · simp only [if_neg he] at hres
      by_cases hb : bucket = ""
      · simp only [hb, if_true] at hres
        cases hres
      · simp only [if_neg hb] at hres
        cases hkv : kv slug with
        | none => rw [hkv] at hres; cases hres
        | some stored =>
          rw [hkv] at hres
          by_cases hkey : stored.editKey ≠ e
          · simp only [if_pos hkey] at hres
            cases hres
          · simp only [if_neg hkey] at hres
            by_cases hurls : urlsToDelete stored u = []
            · simp only [if_pos hurls] at hres
              injection hres with h
              exact ⟨stored, rfl, h.symm⟩
            · simp only [if_neg hurls] at hres
              by_cases hkeys : objectKeysOf parseKey (urlsToDelete stored u) = []
              · simp only [if_pos hkeys] at hres
                injection hres with h
                exact ⟨stored, rfl, h.symm⟩
              · simp only [if_neg hkeys] at hres
                cases hblob : blob (objectKeysOf parseKey (urlsToDelete stored u)) with
                | thrown e' => rw [hblob] at hres; cases hres
                | output errs =>
                  rw [hblob] at hres
                  injection hres with h
                  exact ⟨stored, rfl, h.symm⟩

/-- C6: the GET body for a stored record is its `editKey`-stripped
projection, the projection is insensitive to the stored `editKey` (the
field is gone from the response type), a successful update returns the
stripped projection of the merged record, and every list-endpoint summary
is the `{slug, title, createdAt}` projection of some record. -/
theorem responses_strip_secret_key (m : Memory) (k : String) (kv : KV) (slug : String) :
    (kv slug = some m → getMemory kv slug = .found (toPublic m)) ∧
    toPublic {m with editKey := k} = toPublic m ∧
    (∀ (bucket : String) (ekOpt : Option String) (u : UpdateData)
      (parseKey : String → Option String) (blob : List String → BlobResult)
      (p : PublicMemory),
      (updateMemory bucket kv slug ekOpt u parseKey blob).response = .ok p →
      ∃ stored, kv slug = some stored ∧ p = toPublic (mergeMemory stored u)) ∧
    (∀ (kvE : String → Except String (Option Memory)) (slugs : List String)
      (l : List MemorySummary),
      listMemorySummaries kvE slugs = .ok l →
      ∀ s ∈ l, ∃ mm, s = summaryOf mm) := by
  refine ⟨?_, rfl, ?_, ?_⟩
  · intro h
    simp [getMemory, h]
  · intro bucket ekOpt u parseKey blob p hres
    exact updateMemory_ok_response bucket kv slug ekOpt u parseKey blob p hres
  · intro kvE slugs l hl s hs
    unfold listMemorySummaries at hl
    cases hf : fetchAll kvE slugs with
    | error e => rw [hf] at hl; cases hl
    | ok results =>
      rw [hf] at hl
      simp only [Except.map] at hl
      injection hl with h
      rw [← h] at hs
      rcases List.mem_map.1 hs with ⟨mm, _, hmm⟩
      exact ⟨mm, hmm.symm⟩

/-- Witness for C6: on the fixture store, GET returns the stripped
projection, and the projection ignores the stored key. -/
theorem responses_strip_secret_key_witness :
    getMemory ckv "12345678" = .found (toPublic cstored) ∧
    toPublic {cstored with editKey := "zz"} = toPublic cstored :=
  ⟨(responses_strip_secret_key cstored "zz" ckv "12345678").1 (by decide),
   (responses_strip_secret_key cstored "zz" ckv "12345678").2.1⟩

/-! ## C9: the code generator -/

/-- Every character occurs at most twice in the digit pool. -/
theorem count_codeDigits_le_two (c : Char) : codeDigits.count c ≤ 2 := by
  by_cases hc : c ∈ codeDigits
  · have h : ∀ x ∈ codeDigits, codeDigits.count x ≤ 2 := by decide
    exact h c hc
  · rw [List.count_eq_zero_of_not_mem hc]
    omega

/-- A successful run of the retry loop returns a candidate that the KV
lookup found free, taken from the window of at most `fuel` candidates
starting at index `i`. -/
theorem genLoop_ok (kv : KV) (cands : Nat → String) :
    ∀ (fuel i : Nat) (code : String), genLoop kv cands fuel i = .ok code →
      kv code = none ∧ ∃ j, i ≤ j ∧ j < i + fuel ∧ code = cands j := by
  intro fuel
  induction fuel with
  | zero => intro i code h; cases h
  | succ n ih =>
    intro i code h
    unfold genLoop at h
    by_cases hfree : kv (cands i) = none
    · simp only [if_pos hfree] at h
      injection h with h
      exact ⟨h ▸ hfree, i, le_refl i, by omega, h.symm⟩
    · simp only [if_neg hfree] at h
      obtain ⟨hkv, j, hij, hjn, hcode⟩ := ih (i + 1) code h
      exact ⟨hkv, j, by omega, by omega, hcode⟩

/-- When every candidate in the window collides, the retry loop gives up
with the exhaustion error. -/
theorem genLoop_exhaust (kv : KV) (cands : Nat → String) :
    ∀ (fuel i : Nat), (∀ j, i ≤ j → j < i + fuel → kv (cands j) ≠ none) →
      genLoop kv cands fuel i = .error .exhaustion := by
  intro fuel
  induction fuel with
  | zero => intro i _; rfl
  | succ n ih =>
    intro i h
    unfold genLoop
    rw [if_neg (h i (le_refl i) (by omega))]
    exact ih (i + 1) (fun j hj1 hj2 => h j (by omega) (by omega))

/-- C9: every candidate code is 8 characters long with each symbol
occurring at most twice; allocation returns only a candidate whose KV
lookup found nothing, produced within the hard cap of `maxAttempts`
candidates; when every candidate within the cap collides the generator
fails with the exhaustion error; and the cap is 20. -/
theorem code_generator_contract (shuffles : Nat → List Char) (kv : KV)
    (hperm : ∀ i, (shuffles i).Perm codeDigits) :
    (∀ i, (generateCode (shuffles i)).length = 8 ∧
      ∀ c, (generateCode (shuffles i)).toList.count c ≤ 2) ∧
    (∀ code,
      generateAndCheckCode kv (fun i => generateCode (shuffles i)) = .ok code →
      kv code = none ∧ ∃ i, i < maxAttempts ∧ code = generateCode (shuffles i)) ∧
    ((∀ i, i < maxAttempts → kv (generateCode (shuffles i)) ≠ none) →
      generateAndCheckCode kv (fun i => generateCode (shuffles i))
        = .error .exhaustion) ∧
    maxAttempts = 20 := by
  refine ⟨?_, ?_, ?_, rfl⟩
  · intro i
    have hlen : (shuffles i).length = 20 := (hperm i).length_eq
    constructor
    · show ((shuffles i).take 8).length = 8
      rw [List.length_take, hlen]
      decide
    · intro c
      show ((shuffles i).take 8).count c ≤ 2
      calc ((shuffles i).take 8).count c
          ≤ (shuffles i).count c := (List.take_sublist 8 (shuffles i)).count_le c
        _ = codeDigits.count c := (hperm i).count_eq c
        _ ≤ 2 := count_codeDigits_le_two c
  · intro code h
    obtain ⟨hkv, j, h0j, hj, hcode⟩ :=
      genLoop_ok kv (fun i => generateCode (shuffles i)) maxAttempts 0 code h
    exact ⟨hkv, j, by omega, hcode⟩
  · intro h
    exact genLoop_exhaust kv (fun i => generateCode (shuffles i)) maxAttempts 0
      (fun j _ hj2 => h j (by omega))

/-- A KV store in which every key is taken. -/
def kvFull : KV := fun _ => some cstored

/-- Witness for C9: the identity shuffle yields the 8-character candidate
`00112233` with no symbol more than twice; against the empty store the
returned code is free, and against the full store allocation exhausts. -/
theorem code_generator_contract_witness :
    (generateCode codeDigits).length = 8 ∧
    (generateCode codeDigits).toList.count '0' ≤ 2 ∧
    kv0 (generateCode codeDigits) = none ∧
    generateAndCheckCode kvFull (fun _ => generateCode codeDigits)
      = .error .exhaustion :=
  ⟨((code_generator_contract (fun _ => codeDigits) kv0
      (fun _ => List.Perm.refl _)).1 0).1,
   ((code_generator_contract (fun _ => codeDigits) kv0
      (fun _ => List.Perm.refl _)).1 0).2 '0',
   (((code_generator_contract (fun _ => codeDigits) kv0
      (fun _ => List.Perm.refl _)).2.1 (generateCode codeDigits)) rfl).1,
   (code_generator_contract (fun _ => codeDigits) kvFull
      (fun _ => List.Perm.refl _)).2.2.1 (fun i _ h => by cases h)⟩

/-! ## C10: list summaries -/

/-- When every per-code fetch answers (without throwing), the join returns
the answers in order. -/
theorem fetchAll_ok_of (v : String → Option Memory)
    (kvE : String → Except String (Option Memory)) :
    ∀ slugs : List String, (∀ s ∈ slugs, kvE s = .ok (v s)) →
      fetchAll kvE slugs = .ok (slugs.map v) := by
  intro slugs
  induction slugs with
  | nil => intro _; rfl
  | cons s rest ih =>
    intro h
    have h1 := h s (List.mem_cons_self s rest)
    have h2 := ih (fun x hx => h x (List.mem_cons_of_mem s hx))
    simp [fetchAll, h1, h2, Bind.bind, Except.bind, Functor.map, Except.map,
      pure, Except.pure]

/-- A successful join has one answer per requested code. -/
theorem fetchAll_ok_length (kvE : String → Except String (Option Memory)) :
    ∀ (slugs : List String) (results : List (Option Memory)),
      fetchAll kvE slugs = .ok results → results.length = slugs.length := by
  intro slugs
  induction slugs with
  | nil =>
    intro results h
    cases h
    rfl
  | cons s rest ih =>
    intro results h
    unfold fetchAll at h
    cases hk : kvE s with
    | error e => rw [hk] at h; cases h
    | ok r =>
      rw [hk] at h
      simp only [Bind.bind, Except.bind] at h
      cases hf : fetchAll kvE rest with
      | error e => rw [hf] at h; cases h
      | ok rs =>
        rw [hf] at h
        simp only [pure, Except.pure] at h
        injection h with h
        rw [← h, List.length_cons, ih rs hf]
        rfl

/-- A code whose fetch throws (never answers `.ok`) makes the whole join
reject. -/
theorem fetchAll_error (kvE : String → Except String (Option Memory)) :
    ∀ slugs : List String, (∃ s ∈ slugs, ∀ o, kvE s ≠ .ok o) →
      ∃ e, fetchAll kvE slugs = .error e := by
  intro slugs
  induction slugs with
  | nil => rintro ⟨s, hs, -⟩; cases hs
  | cons s rest ih =>
    rintro ⟨x, hx, hxe⟩
    cases hk : kvE s with
    | error e =>
      exact ⟨e, by
        simp [fetchAll, hk, Bind.bind, Except.bind, Functor.map, Except.map]⟩
    | ok o =>
      rcases List.mem_cons.1 hx with rfl | hx2
      · exact absurd hk (hxe o)
      · obtain ⟨e, he⟩ := ih ⟨x, hx2, hxe⟩
        exact ⟨e, by
          simp [fetchAll, hk, he, Bind.bind, Except.bind, Functor.map, Except.map]⟩

/-- C10 as amended: when every per-code fetch answers, the handler returns
exactly the summaries of the codes that resolved, in order, omitting the
`null` results silently (so the result is never longer than the input);
but a per-code fetch that throws is not caught independently — it fails
the entire operation with an error response. -/
theorem list_summaries_behaviour :
    (∀ (v : String → Option Memory) (kvE : String → Except String (Option Memory))
        (slugs : List String),
      (∀ s ∈ slugs, kvE s = .ok (v s)) →
      listMemorySummaries kvE slugs
        = .ok (((slugs.map v).filterMap id).map summaryOf)) ∧
    (∀ (kvE : String → Except String (Option Memory)) (slugs : List String)
        (l : List MemorySummary),
      listMemorySummaries kvE slugs = .ok l → l.length ≤ slugs.length) ∧
    (∀ (kvE : String → Except String (Option Memory)) (slugs : List String),
      (∃ s ∈ slugs, ∀ o, kvE s ≠ .ok o) →
      ∃ e, listMemorySummaries kvE slugs = .error e) := by
  refine ⟨?_, ?_, ?_⟩
  · intro v kvE slugs h
    unfold listMemorySummaries
    rw [fetchAll_ok_of v kvE slugs h]
    rfl
  · intro kvE slugs l hl
    unfold listMemorySummaries at hl
    cases hf : fetchAll kvE slugs with
    | error e => rw [hf] at hl; cases hl
    | ok results =>
      rw [hf] at hl
      simp only [Except.map] at hl
      injection hl with hl
      rw [← hl, List.length_map]
      calc (results.filterMap id).length
          ≤ results.length := List.length_filterMap_le id results
        _ = slugs.length := fetchAll_ok_length kvE slugs results hf
  · intro kvE slugs h
    obtain ⟨e, he⟩ := fetchAll_error kvE slugs h
    exact ⟨e, by unfold listMemorySummaries; rw [he]; rfl⟩

/-- A fetcher that resolves only the fixture code and throws on everything
else. -/
def kvE10 : String → Except String (Option Memory) := fun s =>
  if s = "12345678" then .ok (some cstored) else .error "kv failure"

/-- Counterexample to C10: with one existing code and one code whose fetch
throws, the claim predicts the single summary of the existing code, but
the handler rejects the whole request with the fetch error. -/
theorem list_failing_fetch_counterexample :
    listMemorySummaries kvE10 ["12345678", "bogus"] = .error "kv failure" ∧
    listMemorySummaries kvE10 ["12345678", "bogus"] ≠ .ok [summaryOf cstored] := by
  constructor
  · rfl
  · intro h
    rw [show listMemorySummaries kvE10 ["12345678", "bogus"]
          = .error "kv failure" from rfl] at h
    cases h

/-- The resolution map behind `kvE2`: only the fixture code resolves. -/
def v2 : String → Option Memory := fun s =>
  if s = "12345678" then some cstored else none

/-- A fetcher that always answers and resolves only the fixture code. -/
def kvE2 : String → Except String (Option Memory) := fun s => .ok (v2 s)

/-- Witness for C10's amended statement: `[existingCode, bogusCode]` yields
exactly the one summary of the existing code. -/
theorem list_summaries_behaviour_witness :
    listMemorySummaries kvE2 ["12345678", "bogus"] = .ok [summaryOf cstored] := by
  have h := list_summaries_behaviour.1 v2 kvE2 ["12345678", "bogus"] (fun s _ => rfl)
  simpa [v2] using h

end Capsule
